import Mathlib

/-!
Verification of the order-fulfillment and profit-settlement pipeline of
`src/backend/src/services/orderProcessor.js`.

The JavaScript module is embedded shallowly:

* Database rows (`orders`, `order_items`, `profit_transfers`) become Lean
  structures; the Supabase tables become lists of rows inside a `DB` state
  record.  A Supabase `update(...).eq('id', id)` is a map over the table that
  rewrites every row whose `id` matches; an `insert` appends.  Timestamp
  bookkeeping columns (`updated_at`, ISO strings) are elided or modelled as
  natural numbers, since no claim concerns them.
* JavaScript numbers carried by the rows (amounts, prices, margins) are
  modelled as rationals; nullable columns are `Option`s.
* The external collaborators (Stripe, the random id generator, the wall
  clock, a failing fetch) are an `Env` record of oracles; an effectful
  JavaScript function of type `A -> B` that may `throw` becomes a Lean
  function `Env -> DB -> A -> DB x Except String B`: the state component is
  returned even on error, because a JavaScript `throw` does not roll back
  earlier mutations.
* A `try/catch` that swallows the error keeps only the state component.
* The `DB.log` field is call-trace instrumentation: an event is recorded at
  the entry of `processPayment` (the Payment Verifier) and at each call of
  `createSupplierOrder` (the Supplier Dispatcher), so that claims of the
  form "the verifier is never invoked" or "items are dispatched in list
  order" are expressible about the final state.
-/

namespace OrderProcessor

/-- One row of the `orders` table, with the columns the pipeline reads or
writes.  `created_at` is an abstract timestamp used only for ordering. -/
structure OrderRec where
  id : Nat
  order_number : String
  created_at : Nat
  status : String
  payment_status : String
  payment_method : String
  stripe_payment_id : String
  total_amount : ℚ
  profit_amount : Option ℚ
  error_message : Option String
deriving DecidableEq

/-- One row of the `order_items` table. -/
structure ItemRec where
  id : Nat
  order_id : Nat
  product_id : Nat
  quantity : Nat
  unit_price : ℚ
  total_price : ℚ
  profit_margin : Option ℚ
  supplier : Option String
  supplier_order_id : Option String
  supplier_status : Option String
deriving DecidableEq

/-- One row of the `profit_transfers` table. -/
structure TransferRec where
  order_id : Nat
  amount : ℚ
  method : String
  transfer_id : String
  status : String
  notes : Option String
  created_at : Nat
deriving DecidableEq

/-- Call-trace instrumentation: which collaborator was invoked. -/
inductive Event where
  | paymentVerify (orderId : Nat)
  | dispatchAttempt (itemId : Nat)
deriving DecidableEq

/-- The durable store plus the call trace. -/
structure DB where
  orders : List OrderRec
  items : List ItemRec
  transfers : List TransferRec
  log : List Event
deriving DecidableEq

/-- An order as fetched by `processOrders`: the row together with its eagerly
loaded `order_items` (the `select('*, order_items (*)')`). -/
structure Order extends OrderRec where
  order_items : List ItemRec
deriving DecidableEq

/-- The not-yet-created supplier-side item record (`items:` array inside the
object literal of `createSupplierOrder`). -/
structure SupplierOrderItem where
  product_id : Nat
  quantity : Nat
  unit_price : ℚ
deriving DecidableEq

/-- The supplier order object built by `createSupplierOrder`. -/
structure SupplierOrder where
  id : String
  supplier : Option String
  items : List SupplierOrderItem
  total_amount : ℚ
  status : String
  estimated_delivery : Nat
  tracking_number : Option String
deriving DecidableEq

/-- The external world: the Stripe client configuration and responses, the
generated supplier-order ids (`Date.now` + `Math.random`, determinised per
item id), the clock, and whether the initial Supabase fetch errors. -/
structure Env where
  stripeConfigured : Bool
  paymentIntentStatus : String → String
  payoutResult : Nat → Except String String
  supplierOrderId : Nat → String
  now : Nat
  fetchError : Option String

/-- `supabase.from('orders').update(fields).eq('id', id)`. -/
def updateOrderRow (db : DB) (id : Nat) (f : OrderRec → OrderRec) : DB :=
  { db with orders := db.orders.map fun r => if r.id = id then f r else r }

/-- `supabase.from('order_items').update(fields).eq('id', id)`. -/
def updateItemRow (db : DB) (id : Nat) (f : ItemRec → ItemRec) : DB :=
  { db with items := db.items.map fun r => if r.id = id then f r else r }

/-- `supabase.from('profit_transfers').insert(record)`. -/
def insertTransfer (db : DB) (t : TransferRec) : DB :=
  { db with transfers := db.transfers ++ [t] }

/-- Record a collaborator call in the trace. -/
def logEvent (db : DB) (e : Event) : DB :=
  { db with log := db.log ++ [e] }

/-- `processPayment(order)` (lines 90-122).  The Stripe branch retrieves the
payment intent and marks the order paid only on status `'succeeded'`,
otherwise throws with the raw status; the PayPal branch marks the order paid
with no processor call; any other method throws.  The inner `try/catch` only
logs and rethrows, so it is the identity semantically. -/
def processPayment (env : Env) (db : DB) (order : Order) : DB × Except String Unit :=
  let db1 := logEvent db (Event.paymentVerify order.id)
  if order.payment_method = "stripe" ∧ env.stripeConfigured = true then
    let status := env.paymentIntentStatus order.stripe_payment_id
    if status = "succeeded" then
      (updateOrderRow db1 order.id fun r => { r with payment_status := "paid" }, Except.ok ())
    else
      (db1, Except.error ("Payment not completed: " ++ status))
  else if order.payment_method = "paypal" then
    (updateOrderRow db1 order.id fun r => { r with payment_status := "paid" }, Except.ok ())
  else
    (db1, Except.error "Unsupported payment method")

/-- JavaScript `x || d` on a nullable number: `null`/`undefined` and `0` are
falsy, every other value is returned as is (`item.profit_margin || 0.25`). -/
def jsOr (m : Option ℚ) (d : ℚ) : ℚ :=
  match m with
  | none => d
  | some x => if x = 0 then d else x

/-- `calculateProfit(order)` (lines 124-141): with line items, the sum of
`total_price * (profit_margin || 0.25)`; without, `total_amount * 0.25`. -/
def calculateProfit (order : Order) : ℚ :=
  let totalAmount := order.total_amount
  let profitMargin : ℚ := 25 / 100
  if order.order_items.length > 0 then
    order.order_items.foldl (fun sum item => sum + item.total_price * jsOr item.profit_margin (25 / 100)) 0
  else
    totalAmount * profitMargin

/-- The per-supplier delivery-offset policy table of
`getEstimatedDeliveryDate`, with its `|| 5` default. -/
def deliveryDaysFor (s : String) : Nat :=
  if s = "amazon" then 2
  else if s = "aliexpress" then 7
  else if s = "mercadolibre" then 3
  else if s = "ebay" then 5
  else 5

/-- `getEstimatedDeliveryDate(supplier)` (lines 208-221).  When the item has
no supplier the JavaScript `supplier.toLowerCase()` throws a `TypeError`;
this is the only way supplier-order creation can fail in the source. -/
def getEstimatedDeliveryDate (env : Env) (supplier : Option String) : Except String Nat :=
  match supplier with
  | none => Except.error "Cannot read properties of null (reading toLowerCase)"
  | some s => Except.ok (env.now + deliveryDaysFor s.toLower)

/-- `createSupplierOrder(orderItem)` (lines 170-192): builds the simulated
supplier order object; the embedded `getEstimatedDeliveryDate` call makes it
throw exactly when the item has no supplier. -/
def createSupplierOrder (env : Env) (orderItem : ItemRec) : Except String SupplierOrder :=
  match getEstimatedDeliveryDate env orderItem.supplier with
  | Except.error e => Except.error e
  | Except.ok d =>
    Except.ok
      { id := env.supplierOrderId orderItem.id
        supplier := orderItem.supplier
        items := [{ product_id := orderItem.product_id
                    quantity := orderItem.quantity
                    unit_price := orderItem.unit_price }]
        total_amount := orderItem.total_price
        status := "ordered"
        estimated_delivery := d
        tracking_number := none }

/-- `processSupplierOrders(orderItems)` (lines 143-168): a sequential `for`
loop; each iteration calls the dispatcher and, on success, persists the
supplier-order id onto the item; the `catch` logs and rethrows, so the first
failure aborts the remaining items while keeping earlier writes. -/
def processSupplierOrders (env : Env) : DB → List ItemRec → DB × Except String (List SupplierOrder)
  | db, [] => (db, Except.ok [])
  | db, item :: rest =>
    let db1 := logEvent db (Event.dispatchAttempt item.id)
    match createSupplierOrder env item with
    | Except.error e => (db1, Except.error e)
    | Except.ok so =>
      let db2 := updateItemRow db1 item.id fun r =>
        { r with supplier_order_id := some so.id, supplier_status := some "ordered" }
      match processSupplierOrders env db2 rest with
      | (db3, Except.error e) => (db3, Except.error e)
      | (db3, Except.ok sos) => (db3, Except.ok (so :: sos))

/-- `transferToBankAccount(order, profitAmount)` (lines 246-276): a Stripe
payout followed by a `profit_transfers` insert with status `'pending'`; a
payout failure rethrows before anything is inserted. -/
def transferToBankAccount (env : Env) (db : DB) (order : Order) (profitAmount : ℚ) :
    DB × Except String Unit :=
  match env.payoutResult order.id with
  | Except.error e => (db, Except.error e)
  | Except.ok payoutId =>
    (insertTransfer db
      { order_id := order.id
        amount := profitAmount
        method := "stripe"
        transfer_id := payoutId
        status := "pending"
        notes := none
        created_at := env.now }, Except.ok ())

/-- `markPayPalTransfer(order, profitAmount)` (lines 278-290): inserts a
`'pending_manual'` transfer record. -/
def markPayPalTransfer (env : Env) (db : DB) (order : Order) (profitAmount : ℚ) : DB :=
  insertTransfer db
    { order_id := order.id
      amount := profitAmount
      method := "paypal"
      transfer_id := "PP-" ++ order.order_number
      status := "pending_manual"
      notes := some "Manual PayPal transfer required"
      created_at := env.now }

/-- `handleProfitTransfer(order, profitAmount)` (lines 223-244): skips
non-positive profit, routes by payment method, and its `try/catch` swallows
every error ("Don't throw error here"), so it never fails. -/
def handleProfitTransfer (env : Env) (db : DB) (order : Order) (profitAmount : ℚ) : DB :=
  if profitAmount ≤ 0 then db
  else if order.payment_method = "stripe" ∧ env.stripeConfigured = true then
    (transferToBankAccount env db order profitAmount).1
  else if order.payment_method = "paypal" then
    markPayPalTransfer env db order profitAmount
  else db

/-- Steps 2-5 of `processSingleOrder` (lines 60-87): persist the computed
profit, dispatch the items, attempt the profit transfer, and mark the order
completed.  Factored out of `processSingleOrder` because it is straight-line
code; a throw escapes with the mutations made so far. -/
def fulfillmentSteps (env : Env) (db1 : DB) (order : Order) : DB × Except String Unit :=
  let profitAmount := calculateProfit order
  let db2 := updateOrderRow db1 order.id fun r => { r with profit_amount := some profitAmount }
  match processSupplierOrders env db2 order.order_items with
  | (db3, Except.error e) => (db3, Except.error e)
  | (db3, Except.ok _) =>
    let db4 := handleProfitTransfer env db3 order profitAmount
    let db5 := updateOrderRow db4 order.id fun r => { r with status := "completed" }
    (db5, Except.ok ())

/-- `processSingleOrder(order)` (lines 50-88): verify payment when
`payment_status === 'pending'`, then run the fulfillment steps.  Any throw
escapes to the caller with the mutations made so far. -/
def processSingleOrder (env : Env) (db : DB) (order : Order) : DB × Except String Unit :=
  let step1 : DB × Except String Unit :=
    if order.payment_status = "pending" then processPayment env db order else (db, Except.ok ())
  match step1 with
  | (db1, Except.error e) => (db1, Except.error e)
  | (db1, Except.ok _) => fulfillmentSteps env db1 order

/-- Stable insertion by `created_at` (ascending), modelling the Supabase
`order('created_at', { ascending: true })`. -/
def insertByCreated (o : OrderRec) : List OrderRec → List OrderRec
  | [] => [o]
  | x :: xs => if o.created_at < x.created_at then o :: x :: xs else x :: insertByCreated o xs

/-- Sort the order rows oldest first. -/
def sortByCreated : List OrderRec → List OrderRec
  | [] => []
  | x :: xs => insertByCreated x (sortByCreated xs)

/-- The fetch of lines 12-22: pending orders, oldest first, limited to 10,
items eagerly loaded; a Supabase error is thrown at line 22. -/
def fetchPendingOrders (env : Env) (db : DB) : Except String (List Order) :=
  match env.fetchError with
  | some e => Except.error e
  | none =>
    Except.ok
      ((((sortByCreated (db.orders.filter fun r => r.status = "pending"))).take 10).map
        fun r => { toOrderRec := r, order_items := db.items.filter fun it => it.order_id = r.id })

/-- One iteration of the `for` loop of `processOrders` (lines 26-42): the
per-order `catch` marks the order failed with the thrown message. -/
def processOrdersStep (env : Env) (db : DB) (order : Order) : DB :=
  match processSingleOrder env db order with
  | (db1, Except.ok _) => db1
  | (db1, Except.error e) =>
    updateOrderRow db1 order.id fun r => { r with status := "failed", error_message := some e }

/-- The body of the outer `try` of `processOrders`: a failing fetch throws,
otherwise the batch is folded through the loop and nothing else throws. -/
def processOrdersTry (env : Env) (db : DB) : DB × Except String Unit :=
  match fetchPendingOrders env db with
  | Except.error e => (db, Except.error e)
  | Except.ok pendingOrders => (pendingOrders.foldl (processOrdersStep env) db, Except.ok ())

/-- `processOrders()` (lines 7-48): the outer `catch` only logs, so the
trigger always returns the accumulated state. -/
def processOrders (env : Env) (db : DB) : DB :=
  (processOrdersTry env db).1

/-!  Derived characterizations.  The definitions below do not re-model the
source; they name the outcome and the per-row effect of each phase so that
the behaviour of the state-passing functions above can be stated row by
row.  Each is connected to the corresponding `process...` function by a
proved lemma. -/

/-- The success/failure outcome of one `processPayment` call, read off the
branch structure of lines 90-122. -/
def paymentOutcome (env : Env) (order : Order) : Except String Unit :=
  if order.payment_method = "stripe" ∧ env.stripeConfigured = true then
    if env.paymentIntentStatus order.stripe_payment_id = "succeeded" then Except.ok ()
    else Except.error ("Payment not completed: " ++ env.paymentIntentStatus order.stripe_payment_id)
  else if order.payment_method = "paypal" then Except.ok ()
  else Except.error "Unsupported payment method"

/-- The outcome of step 1 of `processSingleOrder`: the verifier runs only
when `payment_status === 'pending'`. -/
def paymentPhaseOutcome (env : Env) (order : Order) : Except String Unit :=
  if order.payment_status = "pending" then paymentOutcome env order else Except.ok ()

/-- The outcome of the sequential dispatch loop: the first item whose
`createSupplierOrder` throws determines the error. -/
def dispatchOutcome (env : Env) : List ItemRec → Except String Unit
  | [] => Except.ok ()
  | item :: rest =>
    match createSupplierOrder env item with
    | Except.error e => Except.error e
    | Except.ok _ => dispatchOutcome env rest

/-- The overall outcome of `processSingleOrder` for one order: steps 2, 4
and 5 never throw, so only payment verification and dispatch can fail. -/
def orderOutcome (env : Env) (order : Order) : Except String Unit :=
  match paymentPhaseOutcome env order with
  | Except.error e => Except.error e
  | Except.ok _ => dispatchOutcome env order.order_items

/-- The longest prefix of the item list that dispatches successfully. -/
def okItems (env : Env) (items : List ItemRec) : List ItemRec :=
  items.takeWhile fun it => (createSupplierOrder env it).isOk

/-- The items on which the dispatcher is actually invoked: the successful
prefix together with the first failing item, when there is one. -/
def attemptedItems (env : Env) : List ItemRec → List ItemRec
  | [] => []
  | item :: rest =>
    match createSupplierOrder env item with
    | Except.error _ => [item]
    | Except.ok _ => item :: attemptedItems env rest

/-- Row effect of the dispatch loop on the `order_items` table: every row
whose id matches a dispatched item receives its supplier-order id. -/
def dispatchItemsFn (env : Env) (dispatched : List ItemRec) (r : ItemRec) : ItemRec :=
  dispatched.foldl
    (fun r it =>
      if r.id = it.id then
        { r with supplier_order_id := some (env.supplierOrderId it.id),
                 supplier_status := some "ordered" }
      else r) r

/-- Row effect of a successful payment verification. -/
def markPaid (id : Nat) (r : OrderRec) : OrderRec :=
  if r.id = id then { r with payment_status := "paid" } else r

/-- Row effect of step 1 on the `orders` table. -/
def paidFn (env : Env) (order : Order) (r : OrderRec) : OrderRec :=
  if order.payment_status = "pending" then
    match paymentOutcome env order with
    | Except.ok _ => markPaid order.id r
    | Except.error _ => r
  else r

/-- Row effect of the profit persist of step 2. -/
def profFn (order : Order) (r : OrderRec) : OrderRec :=
  if r.id = order.id then { r with profit_amount := some (calculateProfit order) } else r

/-- Row effect of the completion write of step 5. -/
def complFn (order : Order) (r : OrderRec) : OrderRec :=
  if r.id = order.id then { r with status := "completed" } else r

/-- Row effect of the per-order `catch` of `processOrders`. -/
def failFn (e : String) (order : Order) (r : OrderRec) : OrderRec :=
  if r.id = order.id then { r with status := "failed", error_message := some e } else r

/-- Row effect of `fulfillmentSteps` on the `orders` table. -/
def tailRowFn (env : Env) (order : Order) (r : OrderRec) : OrderRec :=
  match dispatchOutcome env order.order_items with
  | Except.error _ => profFn order r
  | Except.ok _ => complFn order (profFn order r)

/-- Row effect of one whole `processSingleOrder` call on the `orders`
table. -/
def singleRowFn (env : Env) (order : Order) (r : OrderRec) : OrderRec :=
  match paymentPhaseOutcome env order with
  | Except.error _ => r
  | Except.ok _ => tailRowFn env order (paidFn env order r)

/-- Row effect of one loop iteration of `processOrders` (the call plus its
`catch`) on the `orders` table. -/
def stepRowFn (env : Env) (order : Order) (r : OrderRec) : OrderRec :=
  match orderOutcome env order with
  | Except.ok _ => singleRowFn env order r
  | Except.error e => failFn e order (singleRowFn env order r)

/-- Row effect of one loop iteration on the `order_items` table: nothing
when step 1 throws, otherwise the dispatched prefix is recorded. -/
def stepItemsFn (env : Env) (order : Order) (r : ItemRec) : ItemRec :=
  match paymentPhaseOutcome env order with
  | Except.error _ => r
  | Except.ok _ => dispatchItemsFn env (okItems env order.order_items) r

/-- The `profit_transfers` rows appended by one `handleProfitTransfer`
call. -/
def transfersDelta (env : Env) (order : Order) (profitAmount : ℚ) : List TransferRec :=
  if profitAmount ≤ 0 then []
  else if order.payment_method = "stripe" ∧ env.stripeConfigured = true then
    match env.payoutResult order.id with
    | Except.error _ => []
    | Except.ok payoutId =>
      [{ order_id := order.id
         amount := profitAmount
         method := "stripe"
         transfer_id := payoutId
         status := "pending"
         notes := none
         created_at := env.now }]
  else if order.payment_method = "paypal" then
    [{ order_id := order.id
       amount := profitAmount
       method := "paypal"
       transfer_id := "PP-" ++ order.order_number
       status := "pending_manual"
       notes := some "Manual PayPal transfer required"
       created_at := env.now }]
  else []

/-- The call-trace events produced by one loop iteration. -/
def stepLogDelta (env : Env) (order : Order) : List Event :=
  (if order.payment_status = "pending" then [Event.paymentVerify order.id] else []) ++
    match paymentPhaseOutcome env order with
    | Except.error _ => []
    | Except.ok _ =>
      (attemptedItems env order.order_items).map fun it => Event.dispatchAttempt it.id

/-- The `profit_transfers` rows appended by one loop iteration: the payout
phase runs only when payment verification and dispatch both succeeded. -/
def stepTransfersDelta (env : Env) (order : Order) : List TransferRec :=
  match orderOutcome env order with
  | Except.error _ => []
  | Except.ok _ => transfersDelta env order (calculateProfit order)

/-- Forget the value of a fallible result, keeping only success/error. -/
def toUnit : Except String α → Except String Unit
  | Except.error e => Except.error e
  | Except.ok _ => Except.ok ()

/-- Modelled from the spec (section 4.3): per-item profit is `total_price x
margin_fraction`, where the margin fraction "defaults to a configured
default, e.g. 0.25, when an item has none set"; without line items, fall
back to `order.total_amount x default_margin`.  Written only for comparison
with `calculateProfit`: the two differ exactly on an item whose margin is
explicitly set to `0`. -/
def calculateProfitSpec (order : Order) : ℚ :=
  if order.order_items.length > 0 then
    (order.order_items.map fun item => item.total_price * item.profit_margin.getD (25 / 100)).sum
  else
    order.total_amount * (25 / 100)

/-- The hypotheses of the non-negativity claim: non-negative order total,
item prices and explicitly set margins. -/
def NonNegOrder (order : Order) : Prop :=
  0 ≤ order.total_amount ∧
  ∀ item ∈ order.order_items, 0 ≤ item.total_price ∧
    ∀ m, item.profit_margin = some m → 0 ≤ m

/-! Concrete fixtures used by the closed-instance theorems. -/

/-- A fully working environment: configured Stripe, every payment intent
succeeded, every payout accepted. -/
def envOk : Env :=
  { stripeConfigured := true
    paymentIntentStatus := fun _ => "succeeded"
    payoutResult := fun n => Except.ok ("po-" ++ toString n)
    supplierOrderId := fun n => "SUP-" ++ toString n
    now := 1000
    fetchError := none }

/-- An environment whose processor reports payments as not cleared and
declines payouts. -/
def envDeclined : Env :=
  { envOk with
    paymentIntentStatus := fun _ => "requires_payment_method"
    payoutResult := fun _ => Except.error "card_declined" }

/-- An environment whose store fetch fails. -/
def envFetchFail : Env := { envOk with fetchError := some "store unavailable" }

/-- An empty store. -/
def dbEmpty : DB := { orders := [], items := [], transfers := [], log := [] }

/-- A pending PayPal order. -/
def paypalOrder : Order :=
  { id := 1, order_number := "ORD-1", created_at := 1, status := "pending",
    payment_status := "pending", payment_method := "paypal", stripe_payment_id := "pi_1",
    total_amount := 40, profit_amount := none, error_message := none, order_items := [] }

/-- The store holding only `paypalOrder`. -/
def dbPaypal : DB :=
  { orders := [paypalOrder.toOrderRec], items := [], transfers := [], log := [] }

/-- A pending order paying by bank transfer (unsupported). -/
def bankOrder : Order :=
  { id := 2, order_number := "ORD-2", created_at := 2, status := "pending",
    payment_status := "pending", payment_method := "bank_transfer", stripe_payment_id := "",
    total_amount := 8, profit_amount := none, error_message := none, order_items := [] }

/-- Another pending PayPal order, newest of the three. -/
def paypalOrder2 : Order :=
  { id := 3, order_number := "ORD-3", created_at := 3, status := "pending",
    payment_status := "pending", payment_method := "paypal", stripe_payment_id := "pi_3",
    total_amount := 8, profit_amount := none, error_message := none, order_items := [] }

/-- A batch store: two individually valid PayPal orders around a
bank-transfer order that fails payment verification. -/
def dbBatch : DB :=
  { orders := [paypalOrder.toOrderRec, bankOrder.toOrderRec, paypalOrder2.toOrderRec],
    items := [], transfers := [], log := [] }

/-- A paid Stripe order, used for the payout phase. -/
def stripeOrder : Order :=
  { id := 4, order_number := "ORD-4", created_at := 4, status := "pending",
    payment_status := "paid", payment_method := "stripe", stripe_payment_id := "pi_4",
    total_amount := 8, profit_amount := none, error_message := none, order_items := [] }

/-- The store holding only `stripeOrder`. -/
def dbStripe : DB :=
  { orders := [stripeOrder.toOrderRec], items := [], transfers := [], log := [] }

/-- An order whose `payment_status` is `'failed'`: not paid, yet not
`'pending'` either. -/
def skippedOrder : Order :=
  { id := 5, order_number := "ORD-5", created_at := 5, status := "pending",
    payment_status := "failed", payment_method := "paypal", stripe_payment_id := "pi_5",
    total_amount := 8, profit_amount := none, error_message := none, order_items := [] }

/-- The store holding only `skippedOrder`. -/
def dbSkipped : DB :=
  { orders := [skippedOrder.toOrderRec], items := [], transfers := [], log := [] }

/-- An item with a supplier: dispatches successfully. -/
def itemA : ItemRec :=
  { id := 11, order_id := 6, product_id := 100, quantity := 1, unit_price := 4,
    total_price := 4, profit_margin := none, supplier := some "amazon",
    supplier_order_id := none, supplier_status := none }

/-- An item with no supplier: its dispatch throws. -/
def itemB : ItemRec :=
  { id := 12, order_id := 6, product_id := 101, quantity := 1, unit_price := 4,
    total_price := 4, profit_margin := none, supplier := none,
    supplier_order_id := none, supplier_status := none }

/-- An item after the failing one: must never be dispatched. -/
def itemC : ItemRec :=
  { id := 13, order_id := 6, product_id := 102, quantity := 1, unit_price := 4,
    total_price := 4, profit_margin := none, supplier := some "ebay",
    supplier_order_id := none, supplier_status := none }

/-- A paid order whose second item fails dispatch. -/
def dispatchOrder : Order :=
  { id := 6, order_number := "ORD-6", created_at := 6, status := "pending",
    payment_status := "paid", payment_method := "paypal", stripe_payment_id := "pi_6",
    total_amount := 12, profit_amount := none, error_message := none,
    order_items := [itemA, itemB, itemC] }

/-- The store for the dispatch scenario. -/
def dbDispatch : DB :=
  { orders := [dispatchOrder.toOrderRec], items := [itemA, itemB, itemC],
    transfers := [], log := [] }

/-- An order paying by bank transfer whose payment status is already
`'paid'`. -/
def bankPaidOrder : Order :=
  { id := 9, order_number := "ORD-9", created_at := 9, status := "pending",
    payment_status := "paid", payment_method := "bank_transfer", stripe_payment_id := "",
    total_amount := 8, profit_amount := none, error_message := none, order_items := [] }

/-- The store holding only `bankPaidOrder`. -/
def dbBankPaid : DB :=
  { orders := [bankPaidOrder.toOrderRec], items := [], transfers := [], log := [] }

/-- The order of the profit scenario: two items with total prices 10 and 40
and no explicit margins. -/
def demoItem1 : ItemRec :=
  { id := 41, order_id := 4, product_id := 1, quantity := 1, unit_price := 10,
    total_price := 10, profit_margin := none, supplier := some "amazon",
    supplier_order_id := none, supplier_status := none }

/-- Second scenario item: quantity 2 at unit price 20. -/
def demoItem2 : ItemRec :=
  { id := 42, order_id := 4, product_id := 2, quantity := 2, unit_price := 20,
    total_price := 40, profit_margin := none, supplier := some "amazon",
    supplier_order_id := none, supplier_status := none }

/-- The profit-scenario order. -/
def demoOrder : Order :=
  { id := 4, order_number := "ORD-D", created_at := 4, status := "pending",
    payment_status := "paid", payment_method := "paypal", stripe_payment_id := "",
    total_amount := 50, profit_amount := none, error_message := none,
    order_items := [demoItem1, demoItem2] }

/-- An item whose margin is explicitly set to `0`. -/
def zeroMarginItem : ItemRec :=
  { id := 43, order_id := 10, product_id := 3, quantity := 1, unit_price := 10,
    total_price := 10, profit_margin := some 0, supplier := some "amazon",
    supplier_order_id := none, supplier_status := none }

/-- An order holding only the zero-margin item. -/
def zeroMarginOrder : Order :=
  { id := 10, order_number := "ORD-Z", created_at := 10, status := "pending",
    payment_status := "paid", payment_method := "paypal", stripe_payment_id := "",
    total_amount := 10, profit_amount := none, error_message := none,
    order_items := [zeroMarginItem] }

/-! Characterization of `processPayment`. -/

theorem processPayment_snd (env : Env) (db : DB) (order : Order) :
    (processPayment env db order).2 = paymentOutcome env order := by
  unfold processPayment paymentOutcome
  dsimp only
  split_ifs <;> rfl

theorem processPayment_orders (env : Env) (db : DB) (order : Order) :
    (processPayment env db order).1.orders =
      match paymentOutcome env order with
      | Except.ok _ => db.orders.map (markPaid order.id)
      | Except.error _ => db.orders := by
  unfold processPayment paymentOutcome
  dsimp only
  split_ifs <;> simp [updateOrderRow, logEvent, markPaid]

theorem processPayment_items (env : Env) (db : DB) (order : Order) :
    (processPayment env db order).1.items = db.items := by
  unfold processPayment
  dsimp only
  split_ifs <;> rfl

theorem processPayment_transfers (env : Env) (db : DB) (order : Order) :
    (processPayment env db order).1.transfers = db.transfers := by
  unfold processPayment
  dsimp only
  split_ifs <;> rfl

theorem processPayment_log (env : Env) (db : DB) (order : Order) :
    (processPayment env db order).1.log = db.log ++ [Event.paymentVerify order.id] := by
  unfold processPayment
  dsimp only
  split_ifs <;> rfl

/-! Characterization of `processSupplierOrders`. -/

theorem processSupplierOrders_orders (env : Env) (items : List ItemRec) :
    ∀ db : DB, (processSupplierOrders env db items).1.orders = db.orders := by
  induction items with
  | nil => intro db; rfl
  | cons item rest ih =>
    intro db
    unfold processSupplierOrders
    cases h : createSupplierOrder env item with
    | error e => rfl
    | ok so =>
      dsimp only
      cases h2 : processSupplierOrders env
          (updateItemRow (logEvent db (Event.dispatchAttempt item.id)) item.id fun r =>
            { r with supplier_order_id := some so.id, supplier_status := some "ordered" }) rest with
      | mk db3 res =>
        have := ih (updateItemRow (logEvent db (Event.dispatchAttempt item.id)) item.id fun r =>
          { r with supplier_order_id := some so.id, supplier_status := some "ordered" })
        rw [h2] at this
        cases res <;> simpa [updateItemRow, logEvent] using this

theorem processSupplierOrders_transfers (env : Env) (items : List ItemRec) :
    ∀ db : DB, (processSupplierOrders env db items).1.transfers = db.transfers := by
  induction items with
  | nil => intro db; rfl
  | cons item rest ih =>
    intro db
    unfold processSupplierOrders
    cases h : createSupplierOrder env item with
    | error e => rfl
    | ok so =>
      dsimp only
      cases h2 : processSupplierOrders env
          (updateItemRow (logEvent db (Event.dispatchAttempt item.id)) item.id fun r =>
            { r with supplier_order_id := some so.id, supplier_status := some "ordered" }) rest with
      | mk db3 res =>
        have := ih (updateItemRow (logEvent db (Event.dispatchAttempt item.id)) item.id fun r =>
          { r with supplier_order_id := some so.id, supplier_status := some "ordered" })
        rw [h2] at this
        cases res <;> simpa [updateItemRow, logEvent] using this

theorem processSupplierOrders_snd (env : Env) (items : List ItemRec) :
    ∀ db : DB, toUnit (processSupplierOrders env db items).2 = dispatchOutcome env items := by
  induction items with
  | nil => intro db; rfl
  | cons item rest ih =>
    intro db
    unfold processSupplierOrders dispatchOutcome
    cases h : createSupplierOrder env item with
    | error e => rfl
    | ok so =>
      dsimp only
      cases h2 : processSupplierOrders env
          (updateItemRow (logEvent db (Event.dispatchAttempt item.id)) item.id fun r =>
            { r with supplier_order_id := some so.id, supplier_status := some "ordered" }) rest with
      | mk db3 res =>
        have := ih (updateItemRow (logEvent db (Event.dispatchAttempt item.id)) item.id fun r =>
          { r with supplier_order_id := some so.id, supplier_status := some "ordered" })
        rw [h2] at this
        cases res <;> simpa [toUnit] using this

theorem processSupplierOrders_items (env : Env) (items : List ItemRec) :
    ∀ db : DB, (processSupplierOrders env db items).1.items =
      db.items.map (dispatchItemsFn env (okItems env items)) := by
  induction items with
  | nil =>
    intro db
    simp [processSupplierOrders, okItems,
      show dispatchItemsFn env ([] : List ItemRec) = fun r => r from rfl]
  | cons item rest ih =>
    intro db
    unfold processSupplierOrders
    cases h : createSupplierOrder env item with
    | error e =>
      have hko : (createSupplierOrder env item).isOk = false := by rw [h]; rfl
      simp [okItems, List.takeWhile_cons, hko, logEvent,
        show dispatchItemsFn env ([] : List ItemRec) = fun r => r from rfl]
    | ok so =>
      have hko : (createSupplierOrder env item).isOk = true := by rw [h]; rfl
      dsimp only
      cases h2 : processSupplierOrders env
          (updateItemRow (logEvent db (Event.dispatchAttempt item.id)) item.id fun r =>
            { r with supplier_order_id := some so.id, supplier_status := some "ordered" }) rest with
      | mk db3 res =>
        have := ih (updateItemRow (logEvent db (Event.dispatchAttempt item.id)) item.id fun r =>
          { r with supplier_order_id := some so.id, supplier_status := some "ordered" })
        rw [h2] at this
        have hid : so.id = env.supplierOrderId item.id := by
          simp [createSupplierOrder, getEstimatedDeliveryDate] at h
          cases hs : item.supplier with
          | none => rw [hs] at h; simp at h
          | some s =>
            rw [hs] at h
            simp at h
            rw [← h]
        have hfinal : db3.items =
            db.items.map (dispatchItemsFn env (item :: okItems env rest)) := by
          rw [this]
          simp only [updateItemRow, logEvent, dispatchItemsFn, List.foldl_cons, List.map_map]
          apply List.map_congr_left
          intro r _
          simp [dispatchItemsFn, hid]
        cases res <;>
          simpa [okItems, List.takeWhile_cons, hko] using hfinal

theorem processSupplierOrders_log (env : Env) (items : List ItemRec) :
    ∀ db : DB, (processSupplierOrders env db items).1.log =
      db.log ++ (attemptedItems env items).map fun it => Event.dispatchAttempt it.id := by
  induction items with
  | nil => intro db; simp [processSupplierOrders, attemptedItems]
  | cons item rest ih =>
    intro db
    unfold processSupplierOrders attemptedItems
    cases h : createSupplierOrder env item with
    | error e => simp [logEvent]
    | ok so =>
      dsimp only
      cases h2 : processSupplierOrders env
          (updateItemRow (logEvent db (Event.dispatchAttempt item.id)) item.id fun r =>
            { r with supplier_order_id := some so.id, supplier_status := some "ordered" }) rest with
      | mk db3 res =>
        have := ih (updateItemRow (logEvent db (Event.dispatchAttempt item.id)) item.id fun r =>
          { r with supplier_order_id := some so.id, supplier_status := some "ordered" })
        rw [h2] at this
        cases res <;> simpa [updateItemRow, logEvent] using this

/-! Characterization of `handleProfitTransfer`. -/

theorem handleProfitTransfer_orders (env : Env) (db : DB) (order : Order) (p : ℚ) :
    (handleProfitTransfer env db order p).orders = db.orders := by
  unfold handleProfitTransfer transferToBankAccount markPayPalTransfer
  split_ifs <;> first
    | rfl
    | (cases env.payoutResult order.id <;> rfl)

theorem handleProfitTransfer_items (env : Env) (db : DB) (order : Order) (p : ℚ) :
    (handleProfitTransfer env db order p).items = db.items := by
  unfold handleProfitTransfer transferToBankAccount markPayPalTransfer
  split_ifs <;> first
    | rfl
    | (cases env.payoutResult order.id <;> rfl)

theorem handleProfitTransfer_log (env : Env) (db : DB) (order : Order) (p : ℚ) :
    (handleProfitTransfer env db order p).log = db.log := by
  unfold handleProfitTransfer transferToBankAccount markPayPalTransfer
  split_ifs <;> first
    | rfl
    | (cases env.payoutResult order.id <;> rfl)

theorem handleProfitTransfer_transfers (env : Env) (db : DB) (order : Order) (p : ℚ) :
    (handleProfitTransfer env db order p).transfers = db.transfers ++ transfersDelta env order p := by
  unfold handleProfitTransfer transferToBankAccount markPayPalTransfer transfersDelta
  split_ifs <;> cases hx : env.payoutResult order.id <;> simp [insertTransfer]

/-! Characterization of `processSingleOrder`. -/

theorem fulfillmentSteps_snd (env : Env) (db1 : DB) (order : Order) :
    (fulfillmentSteps env db1 order).2 = dispatchOutcome env order.order_items := by
  unfold fulfillmentSteps
  try dsimp only
  cases h3 : processSupplierOrders env
      (updateOrderRow db1 order.id fun r =>
        { r with profit_amount := some (calculateProfit order) }) order.order_items with
  | mk db3 res3 =>
    have := processSupplierOrders_snd env order.order_items
      (updateOrderRow db1 order.id fun r =>
        { r with profit_amount := some (calculateProfit order) })
    rw [h3] at this
    cases res3 <;> simp_all [toUnit]

theorem processSingleOrder_snd (env : Env) (db : DB) (order : Order) :
    (processSingleOrder env db order).2 = orderOutcome env order := by
  unfold processSingleOrder orderOutcome paymentPhaseOutcome
  by_cases hp : order.payment_status = "pending"
  · simp only [hp, if_pos]
    cases hpp : processPayment env db order with
    | mk db1 res1 =>
      have hres : res1 = paymentOutcome env order := by
        have := processPayment_snd env db order
        rw [hpp] at this
        exact this
      cases res1 with
      | error e => simp [← hres]
      | ok u => cases u; simp [← hres, fulfillmentSteps_snd]
  · simp [hp, fulfillmentSteps_snd]

theorem fulfillmentSteps_orders (env : Env) (db1 : DB) (order : Order) :
    (fulfillmentSteps env db1 order).1.orders = db1.orders.map (tailRowFn env order) := by
  unfold fulfillmentSteps
  try dsimp only
  cases h3 : processSupplierOrders env
      (updateOrderRow db1 order.id fun r =>
        { r with profit_amount := some (calculateProfit order) }) order.order_items with
  | mk db3 res3 =>
    have hord := processSupplierOrders_orders env order.order_items
      (updateOrderRow db1 order.id fun r =>
        { r with profit_amount := some (calculateProfit order) })
    rw [h3] at hord
    have hdisp := processSupplierOrders_snd env order.order_items
      (updateOrderRow db1 order.id fun r =>
        { r with profit_amount := some (calculateProfit order) })
    rw [h3] at hdisp
    cases res3 with
    | error e =>
      have hdo : dispatchOutcome env order.order_items = Except.error e := by
        rw [← hdisp]; rfl
      rw [hord]
      simp only [updateOrderRow]
      apply List.map_congr_left
      intro r _
      simp [tailRowFn, hdo, profFn]
    | ok sos =>
      have hdo : dispatchOutcome env order.order_items = Except.ok () := by
        rw [← hdisp]; rfl
      dsimp only at hord
      simp only [updateOrderRow] at hord
      simp only [updateOrderRow, handleProfitTransfer_orders, hord, List.map_map]
      apply List.map_congr_left
      intro r _
      simp [tailRowFn, hdo, profFn, complFn, Function.comp]

theorem fulfillmentSteps_items (env : Env) (db1 : DB) (order : Order) :
    (fulfillmentSteps env db1 order).1.items =
      db1.items.map (dispatchItemsFn env (okItems env order.order_items)) := by
  unfold fulfillmentSteps
  try dsimp only
  cases h3 : processSupplierOrders env
      (updateOrderRow db1 order.id fun r =>
        { r with profit_amount := some (calculateProfit order) }) order.order_items with
  | mk db3 res3 =>
    have hit := processSupplierOrders_items env order.order_items
      (updateOrderRow db1 order.id fun r =>
        { r with profit_amount := some (calculateProfit order) })
    rw [h3] at hit
    cases res3 with
    | error e => simpa [updateOrderRow] using hit
    | ok sos =>
      simpa [updateOrderRow, handleProfitTransfer_items] using hit

theorem fulfillmentSteps_log (env : Env) (db1 : DB) (order : Order) :
    (fulfillmentSteps env db1 order).1.log =
      db1.log ++ (attemptedItems env order.order_items).map fun it =>
        Event.dispatchAttempt it.id := by
  unfold fulfillmentSteps
  try dsimp only
  cases h3 : processSupplierOrders env
      (updateOrderRow db1 order.id fun r =>
        { r with profit_amount := some (calculateProfit order) }) order.order_items with
  | mk db3 res3 =>
    have hlg := processSupplierOrders_log env order.order_items
      (updateOrderRow db1 order.id fun r =>
        { r with profit_amount := some (calculateProfit order) })
    rw [h3] at hlg
    cases res3 with
    | error e => simpa [updateOrderRow] using hlg
    | ok sos => simpa [updateOrderRow, handleProfitTransfer_log] using hlg

theorem fulfillmentSteps_transfers (env : Env) (db1 : DB) (order : Order) :
    (fulfillmentSteps env db1 order).1.transfers =
      db1.transfers ++
        match dispatchOutcome env order.order_items with
        | Except.error _ => []
        | Except.ok _ => transfersDelta env order (calculateProfit order) := by
  unfold fulfillmentSteps
  try dsimp only
  cases h3 : processSupplierOrders env
      (updateOrderRow db1 order.id fun r =>
        { r with profit_amount := some (calculateProfit order) }) order.order_items with
  | mk db3 res3 =>
    have htr := processSupplierOrders_transfers env order.order_items
      (updateOrderRow db1 order.id fun r =>
        { r with profit_amount := some (calculateProfit order) })
    rw [h3] at htr
    have hdisp := processSupplierOrders_snd env order.order_items
      (updateOrderRow db1 order.id fun r =>
        { r with profit_amount := some (calculateProfit order) })
    rw [h3] at hdisp
    cases res3 with
    | error e =>
      have hdo : dispatchOutcome env order.order_items = Except.error e := by
        rw [← hdisp]; rfl
      simpa [updateOrderRow, hdo] using htr
    | ok sos =>
      have hdo : dispatchOutcome env order.order_items = Except.ok () := by
        rw [← hdisp]; rfl
      dsimp only at htr
      simp only [updateOrderRow] at htr
      rw [hdo]
      simp only [updateOrderRow, handleProfitTransfer_transfers, htr]

theorem processSingleOrder_orders (env : Env) (db : DB) (order : Order) :
    (processSingleOrder env db order).1.orders = db.orders.map (singleRowFn env order) := by
  unfold processSingleOrder
  by_cases hp : order.payment_status = "pending"
  · simp only [hp, if_pos]
    cases hpp : processPayment env db order with
    | mk db1 res1 =>
      have hres : res1 = paymentOutcome env order := by
        have := processPayment_snd env db order
        rw [hpp] at this
        exact this
      have hord := processPayment_orders env db order
      rw [hpp] at hord
      dsimp only at hord
      cases res1 with
      | error e =>
        rw [← hres] at hord
        dsimp only at hord
        dsimp only
        rw [hord]
        have hfn : ∀ r ∈ db.orders, singleRowFn env order r = id r := by
          intro r _
          simp [singleRowFn, paymentPhaseOutcome, hp, ← hres]
        rw [List.map_congr_left hfn, List.map_id]
      | ok u =>
        cases u
        rw [← hres] at hord
        dsimp only
        rw [fulfillmentSteps_orders, hord, List.map_map]
        apply List.map_congr_left
        intro r _
        simp [singleRowFn, paymentPhaseOutcome, hp, ← hres, paidFn, Function.comp]
  · simp only [hp, if_neg, if_false]
    try dsimp only
    rw [fulfillmentSteps_orders]
    apply List.map_congr_left
    intro r _
    simp [singleRowFn, paymentPhaseOutcome, hp, paidFn]

theorem processSingleOrder_items (env : Env) (db : DB) (order : Order) :
    (processSingleOrder env db order).1.items = db.items.map (stepItemsFn env order) := by
  unfold processSingleOrder
  by_cases hp : order.payment_status = "pending"
  · simp only [hp, if_pos]
    cases hpp : processPayment env db order with
    | mk db1 res1 =>
      have hres : res1 = paymentOutcome env order := by
        have := processPayment_snd env db order
        rw [hpp] at this
        exact this
      have hit := processPayment_items env db order
      rw [hpp] at hit
      dsimp only at hit
      cases res1 with
      | error e =>
        dsimp only
        rw [hit]
        have hfn : ∀ r ∈ db.items, stepItemsFn env order r = id r := by
          intro r _
          simp [stepItemsFn, paymentPhaseOutcome, hp, ← hres]
        rw [List.map_congr_left hfn, List.map_id]
      | ok u =>
        cases u
        dsimp only
        rw [fulfillmentSteps_items, hit]
        apply List.map_congr_left
        intro r _
        simp [stepItemsFn, paymentPhaseOutcome, hp, ← hres]
  · simp only [hp, if_neg, if_false]
    try dsimp only
    rw [fulfillmentSteps_items]
    apply List.map_congr_left
    intro r _
    simp [stepItemsFn, paymentPhaseOutcome, hp]

theorem processSingleOrder_transfers (env : Env) (db : DB) (order : Order) :
    (processSingleOrder env db order).1.transfers =
      db.transfers ++ stepTransfersDelta env order := by
  unfold processSingleOrder
  by_cases hp : order.payment_status = "pending"
  · simp only [hp, if_pos]
    cases hpp : processPayment env db order with
    | mk db1 res1 =>
      have hres : res1 = paymentOutcome env order := by
        have := processPayment_snd env db order
        rw [hpp] at this
        exact this
      have htr := processPayment_transfers env db order
      rw [hpp] at htr
      dsimp only at htr
      cases res1 with
      | error e =>
        dsimp only
        rw [htr]
        simp [stepTransfersDelta, orderOutcome, paymentPhaseOutcome, hp, ← hres]
      | ok u =>
        cases u
        dsimp only
        rw [fulfillmentSteps_transfers, htr]
        simp only [stepTransfersDelta, orderOutcome, paymentPhaseOutcome, hp, if_pos, ← hres]
  · simp only [hp, if_neg, if_false]
    try dsimp only
    rw [fulfillmentSteps_transfers]
    simp only [stepTransfersDelta, orderOutcome, paymentPhaseOutcome, hp, if_neg, if_false]

theorem processSingleOrder_log (env : Env) (db : DB) (order : Order) :
    (processSingleOrder env db order).1.log = db.log ++ stepLogDelta env order := by
  unfold processSingleOrder
  by_cases hp : order.payment_status = "pending"
  · simp only [hp, if_pos]
    cases hpp : processPayment env db order with
    | mk db1 res1 =>
      have hres : res1 = paymentOutcome env order := by
        have := processPayment_snd env db order
        rw [hpp] at this
        exact this
      have hlg := processPayment_log env db order
      rw [hpp] at hlg
      dsimp only at hlg
      cases res1 with
      | error e =>
        dsimp only
        rw [hlg]
        simp [stepLogDelta, paymentPhaseOutcome, hp, ← hres]
      | ok u =>
        cases u
        dsimp only
        rw [fulfillmentSteps_log, hlg]
        simp [stepLogDelta, paymentPhaseOutcome, hp, ← hres]
  · simp only [hp, if_neg, if_false]
    try dsimp only
    rw [fulfillmentSteps_log]
    simp [stepLogDelta, paymentPhaseOutcome, hp]

/-! Characterization of one loop iteration of `processOrders`. -/

theorem processOrdersStep_orders (env : Env) (db : DB) (order : Order) :
    (processOrdersStep env db order).orders = db.orders.map (stepRowFn env order) := by
  unfold processOrdersStep
  cases hps : processSingleOrder env db order with
  | mk db1 res =>
    have hres : res = orderOutcome env order := by
      have := processSingleOrder_snd env db order
      rw [hps] at this
      exact this
    have hord := processSingleOrder_orders env db order
    rw [hps] at hord
    dsimp only at hord
    cases res with
    | ok u =>
      dsimp only
      rw [hord]
      apply List.map_congr_left
      intro r _
      simp [stepRowFn, ← hres]
    | error e =>
      dsimp only
      simp only [updateOrderRow, hord, List.map_map]
      apply List.map_congr_left
      intro r _
      simp [stepRowFn, ← hres, failFn, Function.comp]

theorem processOrdersStep_items (env : Env) (db : DB) (order : Order) :
    (processOrdersStep env db order).items = db.items.map (stepItemsFn env order) := by
  unfold processOrdersStep
  cases hps : processSingleOrder env db order with
  | mk db1 res =>
    have hit := processSingleOrder_items env db order
    rw [hps] at hit
    dsimp only at hit
    cases res with
    | ok u => exact hit
    | error e => simpa [updateOrderRow] using hit

theorem processOrdersStep_transfers (env : Env) (db : DB) (order : Order) :
    (processOrdersStep env db order).transfers = db.transfers ++ stepTransfersDelta env order := by
  unfold processOrdersStep
  cases hps : processSingleOrder env db order with
  | mk db1 res =>
    have htr := processSingleOrder_transfers env db order
    rw [hps] at htr
    dsimp only at htr
    cases res with
    | ok u => exact htr
    | error e => simpa [updateOrderRow] using htr

theorem processOrdersStep_log (env : Env) (db : DB) (order : Order) :
    (processOrdersStep env db order).log = db.log ++ stepLogDelta env order := by
  unfold processOrdersStep
  cases hps : processSingleOrder env db order with
  | mk db1 res =>
    have hlg := processSingleOrder_log env db order
    rw [hps] at hlg
    dsimp only at hlg
    cases res with
    | ok u => exact hlg
    | error e => simpa [updateOrderRow] using hlg

/-! Batch-level composition. -/

theorem foldl_step_orders (env : Env) (batch : List Order) :
    ∀ db : DB, (batch.foldl (processOrdersStep env) db).orders =
      db.orders.map fun r => batch.foldl (fun r o => stepRowFn env o r) r := by
  induction batch with
  | nil => intro db; simp
  | cons o rest ih =>
    intro db
    simp only [List.foldl_cons]
    rw [ih (processOrdersStep env db o), processOrdersStep_orders, List.map_map]
    rfl

theorem markPaid_id (i : Nat) (r : OrderRec) : (markPaid i r).id = r.id := by
  unfold markPaid; split_ifs <;> rfl

theorem paidFn_id (env : Env) (order : Order) (r : OrderRec) :
    (paidFn env order r).id = r.id := by
  unfold paidFn
  split_ifs
  · cases paymentOutcome env order <;> simp [markPaid_id]
  · rfl

theorem profFn_id (order : Order) (r : OrderRec) : (profFn order r).id = r.id := by
  unfold profFn; split_ifs <;> rfl

theorem complFn_id (order : Order) (r : OrderRec) : (complFn order r).id = r.id := by
  unfold complFn; split_ifs <;> rfl

theorem failFn_id (e : String) (order : Order) (r : OrderRec) :
    (failFn e order r).id = r.id := by
  unfold failFn; split_ifs <;> rfl

theorem tailRowFn_id (env : Env) (order : Order) (r : OrderRec) :
    (tailRowFn env order r).id = r.id := by
  unfold tailRowFn
  cases dispatchOutcome env order.order_items <;> simp [profFn_id, complFn_id]

theorem singleRowFn_id (env : Env) (order : Order) (r : OrderRec) :
    (singleRowFn env order r).id = r.id := by
  unfold singleRowFn
  cases paymentPhaseOutcome env order <;> simp [tailRowFn_id, paidFn_id]

theorem stepRowFn_id (env : Env) (order : Order) (r : OrderRec) :
    (stepRowFn env order r).id = r.id := by
  unfold stepRowFn
  cases orderOutcome env order <;> simp [singleRowFn_id, failFn_id]

theorem markPaid_ne (i : Nat) (r : OrderRec) (h : r.id ≠ i) : markPaid i r = r := by
  unfold markPaid; simp [h]

theorem paidFn_ne (env : Env) (order : Order) (r : OrderRec) (h : r.id ≠ order.id) :
    paidFn env order r = r := by
  unfold paidFn
  split_ifs
  · cases paymentOutcome env order with
    | error e => rfl
    | ok u => exact markPaid_ne order.id r h
  · rfl

theorem profFn_ne (order : Order) (r : OrderRec) (h : r.id ≠ order.id) :
    profFn order r = r := by
  unfold profFn; simp [h]

theorem complFn_ne (order : Order) (r : OrderRec) (h : r.id ≠ order.id) :
    complFn order r = r := by
  unfold complFn; simp [h]

theorem failFn_ne (e : String) (order : Order) (r : OrderRec) (h : r.id ≠ order.id) :
    failFn e order r = r := by
  unfold failFn; simp [h]

theorem tailRowFn_ne (env : Env) (order : Order) (r : OrderRec) (h : r.id ≠ order.id) :
    tailRowFn env order r = r := by
  unfold tailRowFn
  cases dispatchOutcome env order.order_items with
  | error e => exact profFn_ne order r h
  | ok u => rw [profFn_ne order r h]; exact complFn_ne order r h

theorem singleRowFn_ne (env : Env) (order : Order) (r : OrderRec) (h : r.id ≠ order.id) :
    singleRowFn env order r = r := by
  unfold singleRowFn
  cases paymentPhaseOutcome env order with
  | error e => rfl
  | ok u => rw [paidFn_ne env order r h]; exact tailRowFn_ne env order r h

theorem stepRowFn_ne (env : Env) (order : Order) (r : OrderRec) (h : r.id ≠ order.id) :
    stepRowFn env order r = r := by
  unfold stepRowFn
  cases orderOutcome env order with
  | ok u => exact singleRowFn_ne env order r h
  | error e => rw [singleRowFn_ne env order r h]; exact failFn_ne e order r h

/-- Processing the rest of a batch whose orders all have a different id
leaves a row untouched. -/
theorem foldl_rowFn_skip (env : Env) (batch : List Order) (r : OrderRec)
    (h : ∀ o ∈ batch, r.id ≠ o.id) :
    batch.foldl (fun r o => stepRowFn env o r) r = r := by
  induction batch with
  | nil => rfl
  | cons o rest ih =>
    simp only [List.foldl_cons]
    rw [stepRowFn_ne env o r (h o (List.mem_cons_self o rest))]
    exact ih fun o' ho' => h o' (List.mem_cons_of_mem o ho')

/-- With pairwise-distinct ids in the batch, the composite row effect on the
row of `order` is exactly `order`'s own step. -/
theorem foldl_rowFn_single (env : Env) (batch : List Order) (order : Order)
    (hmem : order ∈ batch) (hnd : (batch.map fun o => o.id).Nodup)
    (r : OrderRec) (hr : r.id = order.id) :
    batch.foldl (fun r o => stepRowFn env o r) r = stepRowFn env order r := by
  induction batch with
  | nil => cases hmem
  | cons o rest ih =>
    simp only [List.map_cons, List.nodup_cons] at hnd
    rcases List.mem_cons.mp hmem with heq | hrest
    · subst heq
      simp only [List.foldl_cons]
      apply foldl_rowFn_skip
      intro o' ho'
      rw [stepRowFn_id, hr]
      intro hcontra
      exact hnd.1 (hcontra ▸ List.mem_map_of_mem (fun o => o.id) ho')
    · have hne : r.id ≠ o.id := by
        rw [hr]
        intro hcontra
        exact hnd.1 (hcontra ▸ List.mem_map_of_mem (fun o => o.id) hrest)
      simp only [List.foldl_cons]
      rw [stepRowFn_ne env o r hne]
      exact ih hrest hnd.2

/-! The fetch: sorting and membership facts. -/

theorem insertByCreated_perm (o : OrderRec) (l : List OrderRec) :
    (insertByCreated o l).Perm (o :: l) := by
  induction l with
  | nil => simp [insertByCreated]
  | cons x xs ih =>
    unfold insertByCreated
    split_ifs
    · exact List.Perm.refl _
    · exact (List.Perm.cons x ih).trans (List.Perm.swap o x xs)

theorem sortByCreated_perm (l : List OrderRec) : (sortByCreated l).Perm l := by
  induction l with
  | nil => simp [sortByCreated]
  | cons x xs ih =>
    unfold sortByCreated
    exact (insertByCreated_perm x (sortByCreated xs)).trans (List.Perm.cons x ih)

theorem fetch_ids_nodup (env : Env) (db : DB) (batch : List Order)
    (hnd : (db.orders.map OrderRec.id).Nodup)
    (hb : fetchPendingOrders env db = Except.ok batch) :
    (batch.map fun o => o.id).Nodup := by
  unfold fetchPendingOrders at hb
  cases hfe : env.fetchError with
  | some e => rw [hfe] at hb; exact absurd hb (by simp)
  | none =>
    rw [hfe] at hb
    dsimp only at hb
    injection hb with hb
    subst hb
    rw [List.map_map]
    have h2 : ((db.orders.filter fun r => r.status = "pending").map OrderRec.id).Nodup :=
      List.Nodup.sublist ((List.filter_sublist db.orders).map OrderRec.id) hnd
    have h3 := (sortByCreated_perm (db.orders.filter fun r => r.status = "pending")).map OrderRec.id
    have h4 : ((sortByCreated (db.orders.filter fun r => r.status = "pending")).map
        OrderRec.id).Nodup := (List.Perm.nodup_iff h3).mpr h2
    exact List.Nodup.sublist
      ((List.take_sublist 10
        (sortByCreated (db.orders.filter fun r => r.status = "pending"))).map OrderRec.id) h4

theorem fetch_mem (env : Env) (db : DB) (batch : List Order) (order : Order)
    (hb : fetchPendingOrders env db = Except.ok batch) (ho : order ∈ batch) :
    order.toOrderRec ∈ db.orders := by
  unfold fetchPendingOrders at hb
  cases hfe : env.fetchError with
  | some e => rw [hfe] at hb; exact absurd hb (by simp)
  | none =>
    rw [hfe] at hb
    dsimp only at hb
    injection hb with hb
    subst hb
    rcases List.mem_map.mp ho with ⟨r, hr, heq⟩
    have h1 : r ∈ sortByCreated (db.orders.filter fun a => a.status = "pending") :=
      List.mem_of_mem_take hr
    have h2 : r ∈ db.orders.filter fun a => a.status = "pending" :=
      ((sortByCreated_perm _).mem_iff).mp h1
    have h3 : r ∈ db.orders := List.mem_of_mem_filter h2
    subst heq
    exact h3

/-! Profit arithmetic. -/

theorem foldl_add_map (g : ItemRec → ℚ) (l : List ItemRec) :
    ∀ a : ℚ, List.foldl (fun s item => s + g item) a l = a + (l.map g).sum := by
  induction l with
  | nil => intro a; simp
  | cons x xs ih =>
    intro a
    simp only [List.foldl_cons, List.map_cons, List.sum_cons, ih (a + g x)]
    ring

theorem calculateProfit_items (order : Order) (h : order.order_items ≠ []) :
    calculateProfit order =
      (order.order_items.map fun item =>
        item.total_price * jsOr item.profit_margin (25 / 100)).sum := by
  unfold calculateProfit
  rw [if_pos (List.length_pos.mpr h), foldl_add_map]
  simp

theorem jsOr_nonneg (m : Option ℚ) (hm : ∀ x, m = some x → 0 ≤ x) :
    0 ≤ jsOr m (25 / 100) := by
  unfold jsOr
  cases m with
  | none => norm_num
  | some x =>
    dsimp only
    split_ifs
    · norm_num
    · exact hm x rfl

theorem calculateProfit_nonneg (order : Order) (hnn : NonNegOrder order) :
    0 ≤ calculateProfit order := by
  by_cases h : order.order_items = []
  · unfold calculateProfit
    rw [if_neg (by simp [h])]
    have := hnn.1
    positivity
  · rw [calculateProfit_items order h]
    apply List.sum_nonneg
    intro x hx
    rcases List.mem_map.mp hx with ⟨item, hitem, rfl⟩
    have h1 := (hnn.2 item hitem).1
    have h2 := (hnn.2 item hitem).2
    exact mul_nonneg h1 (jsOr_nonneg item.profit_margin h2)

/-! The top-level trigger. -/

theorem processOrders_fetchError (env : Env) (db : DB) (e : String)
    (h : fetchPendingOrders env db = Except.error e) : processOrders env db = db := by
  unfold processOrders processOrdersTry
  rw [h]

theorem processOrders_ok (env : Env) (db : DB) (batch : List Order)
    (hb : fetchPendingOrders env db = Except.ok batch) :
    processOrders env db = batch.foldl (processOrdersStep env) db := by
  unfold processOrders processOrdersTry
  rw [hb]

theorem foldl_rowFn_preserves_id (env : Env) (batch : List Order) (r : OrderRec) :
    (batch.foldl (fun r o => stepRowFn env o r) r).id = r.id := by
  induction batch generalizing r with
  | nil => rfl
  | cons o rest ih =>
    simp only [List.foldl_cons]
    rw [ih, stepRowFn_id]

/-! Status and profit of a single order's final row. -/

theorem singleRowFn_completed (env : Env) (order : Order) (r : OrderRec)
    (hid : r.id = order.id)
    (hpay : paymentPhaseOutcome env order = Except.ok ())
    (hdisp : dispatchOutcome env order.order_items = Except.ok ()) :
    (singleRowFn env order r).status = "completed" := by
  unfold singleRowFn tailRowFn
  rw [hpay, hdisp]
  unfold complFn
  rw [if_pos (by rw [profFn_id, paidFn_id, hid])]

theorem stepRowFn_completed (env : Env) (order : Order) (r : OrderRec)
    (hid : r.id = order.id) (h : orderOutcome env order = Except.ok ()) :
    (stepRowFn env order r).status = "completed" := by
  have hpay : paymentPhaseOutcome env order = Except.ok () := by
    unfold orderOutcome at h
    cases hp : paymentPhaseOutcome env order with
    | error e => rw [hp] at h; exact absurd h (by simp)
    | ok u => rfl
  have hdisp : dispatchOutcome env order.order_items = Except.ok () := by
    unfold orderOutcome at h
    rw [hpay] at h
    exact h
  unfold stepRowFn
  rw [h]
  exact singleRowFn_completed env order r hid hpay hdisp

theorem stepRowFn_failed (env : Env) (order : Order) (r : OrderRec) (e : String)
    (hid : r.id = order.id) (h : orderOutcome env order = Except.error e) :
    (stepRowFn env order r).status = "failed" ∧
      (stepRowFn env order r).error_message = some e := by
  unfold stepRowFn
  rw [h]
  dsimp only
  unfold failFn
  rw [if_pos (by rw [singleRowFn_id, hid])]
  exact ⟨rfl, rfl⟩

theorem paidFn_profit (env : Env) (order : Order) (r : OrderRec) :
    (paidFn env order r).profit_amount = r.profit_amount := by
  unfold paidFn
  split_ifs
  · cases paymentOutcome env order with
    | error e => rfl
    | ok u => unfold markPaid; split_ifs <;> rfl
  · rfl

theorem profFn_profit (order : Order) (r : OrderRec) :
    (profFn order r).profit_amount = r.profit_amount ∨
      (profFn order r).profit_amount = some (calculateProfit order) := by
  unfold profFn
  split_ifs
  · right; rfl
  · left; rfl

theorem complFn_profit (order : Order) (r : OrderRec) :
    (complFn order r).profit_amount = r.profit_amount := by
  unfold complFn; split_ifs <;> rfl

theorem failFn_profit (e : String) (order : Order) (r : OrderRec) :
    (failFn e order r).profit_amount = r.profit_amount := by
  unfold failFn; split_ifs <;> rfl

theorem tailRowFn_profit (env : Env) (order : Order) (r : OrderRec) :
    (tailRowFn env order r).profit_amount = r.profit_amount ∨
      (tailRowFn env order r).profit_amount = some (calculateProfit order) := by
  unfold tailRowFn
  cases dispatchOutcome env order.order_items with
  | error e => exact profFn_profit order r
  | ok u =>
    rw [complFn_profit order (profFn order r)]
    exact profFn_profit order r

theorem singleRowFn_profit (env : Env) (order : Order) (r : OrderRec) :
    (singleRowFn env order r).profit_amount = r.profit_amount ∨
      (singleRowFn env order r).profit_amount = some (calculateProfit order) := by
  unfold singleRowFn
  cases paymentPhaseOutcome env order with
  | error e => left; rfl
  | ok u =>
    rcases tailRowFn_profit env order (paidFn env order r) with h | h
    · left; rw [h, paidFn_profit]
    · right; exact h

theorem stepRowFn_profit (env : Env) (order : Order) (r : OrderRec) :
    (stepRowFn env order r).profit_amount = r.profit_amount ∨
      (stepRowFn env order r).profit_amount = some (calculateProfit order) := by
  unfold stepRowFn
  cases orderOutcome env order with
  | ok u => exact singleRowFn_profit env order r
  | error e =>
    rw [failFn_profit e order (singleRowFn env order r)]
    exact singleRowFn_profit env order r

/-! Splitting the item list at the first dispatch failure. -/

theorem okItems_split (env : Env) (pre : List ItemRec) (it : ItemRec) (post : List ItemRec)
    (hpre : ∀ p ∈ pre, (createSupplierOrder env p).isOk = true)
    (hfail : (createSupplierOrder env it).isOk = false) :
    okItems env (pre ++ it :: post) = pre := by
  induction pre with
  | nil => simp [okItems, List.takeWhile_cons, hfail]
  | cons p ps ih =>
    have hp := hpre p (List.mem_cons_self p ps)
    have hrest : ∀ q ∈ ps, (createSupplierOrder env q).isOk = true := fun q hq =>
      hpre q (List.mem_cons_of_mem p hq)
    simp only [List.cons_append, okItems, List.takeWhile_cons, hp]
    simpa [okItems] using ih hrest

theorem attemptedItems_split (env : Env) (pre : List ItemRec) (it : ItemRec)
    (post : List ItemRec)
    (hpre : ∀ p ∈ pre, (createSupplierOrder env p).isOk = true)
    (hfail : (createSupplierOrder env it).isOk = false) :
    attemptedItems env (pre ++ it :: post) = pre ++ [it] := by
  induction pre with
  | nil =>
    cases h : createSupplierOrder env it with
    | ok so => rw [h] at hfail; exact absurd hfail (by simp [Except.isOk, Except.toBool])
    | error e => simp [attemptedItems, h]
  | cons p ps ih =>
    have hp := hpre p (List.mem_cons_self p ps)
    have hrest : ∀ q ∈ ps, (createSupplierOrder env q).isOk = true := fun q hq =>
      hpre q (List.mem_cons_of_mem p hq)
    cases h : createSupplierOrder env p with
    | error e => rw [h] at hp; exact absurd hp (by simp [Except.isOk, Except.toBool])
    | ok so =>
      simp only [List.cons_append, attemptedItems, h]
      simp [ih hrest]

theorem dispatchOutcome_split (env : Env) (pre : List ItemRec) (it : ItemRec)
    (post : List ItemRec) (e : String)
    (hpre : ∀ p ∈ pre, (createSupplierOrder env p).isOk = true)
    (hfail : createSupplierOrder env it = Except.error e) :
    dispatchOutcome env (pre ++ it :: post) = Except.error e := by
  induction pre with
  | nil => simp [dispatchOutcome, hfail]
  | cons p ps ih =>
    have hp := hpre p (List.mem_cons_self p ps)
    have hrest : ∀ q ∈ ps, (createSupplierOrder env q).isOk = true := fun q hq =>
      hpre q (List.mem_cons_of_mem p hq)
    cases h : createSupplierOrder env p with
    | error e2 => rw [h] at hp; exact absurd hp (by simp [Except.isOk, Except.toBool])
    | ok so =>
      simp only [List.cons_append, dispatchOutcome, h]
      exact ih hrest

/-! Claim theorems. -/

/-- Claim C1, counterexample to the claim as stated: under a processor that
reports the payment as not cleared (`'requires_payment_method'`), the
verifier still returns a confirmed result for a PayPal order and marks it
paid — so confirmation is not tied to a successful processor check, and the
failing cases do not all carry the processor's raw status. -/
theorem c1_paypal_without_check_cx :
    envDeclined.paymentIntentStatus paypalOrder.stripe_payment_id ≠ "succeeded" ∧
    (processPayment envDeclined dbPaypal paypalOrder).2 = Except.ok () ∧
    ((processPayment envDeclined dbPaypal paypalOrder).1.orders.map fun r =>
      r.payment_status) = ["paid"] :=
  ⟨by decide, by rfl, by decide⟩

/-- Claim C1 (amended): for a Stripe order with a configured client, the
verifier confirms exactly when the processor reports `'succeeded'`, and
otherwise fails with a PaymentNotConfirmed condition carrying the
processor's raw status string without marking the order paid; a PayPal
order is confirmed and marked paid unconditionally, with no processor
check; any other payment method fails with UnsupportedPaymentMethod and
marks nothing. -/
theorem c1_payment_verifier_amended (env : Env) (db : DB) (order : Order) :
    (order.payment_method = "stripe" ∧ env.stripeConfigured = true →
      (env.paymentIntentStatus order.stripe_payment_id = "succeeded" →
        (processPayment env db order).2 = Except.ok () ∧
        (processPayment env db order).1.orders = db.orders.map (markPaid order.id)) ∧
      (env.paymentIntentStatus order.stripe_payment_id ≠ "succeeded" →
        (processPayment env db order).2 =
          Except.error ("Payment not completed: " ++
            env.paymentIntentStatus order.stripe_payment_id) ∧
        (processPayment env db order).1.orders = db.orders)) ∧
    (order.payment_method = "paypal" →
      (processPayment env db order).2 = Except.ok () ∧
      (processPayment env db order).1.orders = db.orders.map (markPaid order.id)) ∧
    (¬(order.payment_method = "stripe" ∧ env.stripeConfigured = true) →
      order.payment_method ≠ "paypal" →
      (processPayment env db order).2 = Except.error "Unsupported payment method" ∧
      (processPayment env db order).1.orders = db.orders) := by
  have hsnd := processPayment_snd env db order
  have hord := processPayment_orders env db order
  refine ⟨fun hA => ⟨fun hs => ?_, fun hs => ?_⟩, fun hpp => ?_, fun hA hpp => ?_⟩
  · have hpo : paymentOutcome env order = Except.ok () := by
      unfold paymentOutcome
      rw [if_pos hA, if_pos hs]
    simp only [hpo] at hsnd hord
    exact ⟨hsnd, hord⟩
  · have hpo : paymentOutcome env order =
        Except.error ("Payment not completed: " ++
          env.paymentIntentStatus order.stripe_payment_id) := by
      unfold paymentOutcome
      rw [if_pos hA, if_neg hs]
    simp only [hpo] at hsnd hord
    exact ⟨hsnd, hord⟩
  · have hA : ¬(order.payment_method = "stripe" ∧ env.stripeConfigured = true) := by
      rintro ⟨h1, -⟩
      rw [hpp] at h1
      exact absurd h1 (by decide)
    have hpo : paymentOutcome env order = Except.ok () := by
      unfold paymentOutcome
      rw [if_neg hA, if_pos hpp]
    simp only [hpo] at hsnd hord
    exact ⟨hsnd, hord⟩
  · have hpo : paymentOutcome env order = Except.error "Unsupported payment method" := by
      unfold paymentOutcome
      rw [if_neg hA, if_neg hpp]
    simp only [hpo] at hsnd hord
    exact ⟨hsnd, hord⟩

/-- Claim C1, witness: the amended theorem applied to a configured-Stripe
order whose payment intent succeeded. -/
theorem c1_witness :
    (stripeOrder.payment_method = "stripe" ∧ envOk.stripeConfigured = true) ∧
    envOk.paymentIntentStatus stripeOrder.stripe_payment_id = "succeeded" ∧
    ((processPayment envOk dbStripe stripeOrder).2 = Except.ok () ∧
      (processPayment envOk dbStripe stripeOrder).1.orders =
        dbStripe.orders.map (markPaid stripeOrder.id)) := by
  have h1 : stripeOrder.payment_method = "stripe" ∧ envOk.stripeConfigured = true := by
    exact ⟨by decide, by decide⟩
  have h2 : envOk.paymentIntentStatus stripeOrder.stripe_payment_id = "succeeded" := by decide
  exact ⟨h1, h2, ((c1_payment_verifier_amended envOk dbStripe stripeOrder).1 h1).1 h2⟩

/-- Claim C3, counterexample to the claim as stated: with a positive profit
and a failing downstream payout, the payout phase writes no `ProfitTransfer`
record at all — the failure is only logged, not recorded as a distinct
transfer status. -/
theorem c3_payout_failure_no_record_cx :
    (0 : ℚ) < 10 ∧
    envDeclined.payoutResult stripeOrder.id = Except.error "card_declined" ∧
    (handleProfitTransfer envDeclined dbEmpty stripeOrder 10).transfers = [] :=
  ⟨by decide, by rfl, by decide⟩

/-- Claim C3 (amended): one invocation of the payout phase appends exactly
one `ProfitTransfer` record when the profit is positive and either the
Stripe payout succeeds (status `'pending'`) or the method is PayPal (status
`'pending_manual'`); when the downstream payout call fails, the profit is
non-positive, or the method is unsupported, no record is written. -/
theorem c3_transfer_record_amended (env : Env) (db : DB) (order : Order) (p : ℚ) :
    (0 < p → order.payment_method = "stripe" ∧ env.stripeConfigured = true →
      (∀ pid, env.payoutResult order.id = Except.ok pid →
        (handleProfitTransfer env db order p).transfers =
          db.transfers ++
            [{ order_id := order.id
               amount := p
               method := "stripe"
               transfer_id := pid
               status := "pending"
               notes := none
               created_at := env.now }]) ∧
      (∀ e, env.payoutResult order.id = Except.error e →
        (handleProfitTransfer env db order p).transfers = db.transfers)) ∧
    (0 < p → ¬(order.payment_method = "stripe" ∧ env.stripeConfigured = true) →
      order.payment_method = "paypal" →
      (handleProfitTransfer env db order p).transfers =
        db.transfers ++
          [{ order_id := order.id
             amount := p
             method := "paypal"
             transfer_id := "PP-" ++ order.order_number
             status := "pending_manual"
             notes := some "Manual PayPal transfer required"
             created_at := env.now }]) ∧
    (0 < p → ¬(order.payment_method = "stripe" ∧ env.stripeConfigured = true) →
      order.payment_method ≠ "paypal" →
      (handleProfitTransfer env db order p).transfers = db.transfers) ∧
    (p ≤ 0 → (handleProfitTransfer env db order p).transfers = db.transfers) := by
  have ht := handleProfitTransfer_transfers env db order p
  refine ⟨fun hp hA => ⟨fun pid hpr => ?_, fun e hpr => ?_⟩,
          fun hp hA hpp => ?_, fun hp hA hpp => ?_, fun hp => ?_⟩
  · rw [ht]
    unfold transfersDelta
    rw [if_neg (not_le.mpr hp), if_pos hA]
    simp only [hpr]
  · rw [ht]
    unfold transfersDelta
    rw [if_neg (not_le.mpr hp), if_pos hA]
    simp only [hpr, List.append_nil]
  · rw [ht]
    unfold transfersDelta
    rw [if_neg (not_le.mpr hp), if_neg hA, if_pos hpp]
  · rw [ht]
    unfold transfersDelta
    rw [if_neg (not_le.mpr hp), if_neg hA, if_neg hpp]
    simp
  · rw [ht]
    unfold transfersDelta
    rw [if_pos hp]
    simp

/-- Claim C3, witness: the amended theorem applied to a positive-profit
Stripe order whose payout succeeds; exactly one `'pending'` record is
appended. -/
theorem c3_witness :
    (0 : ℚ) < 10 ∧
    (stripeOrder.payment_method = "stripe" ∧ envOk.stripeConfigured = true) ∧
    envOk.payoutResult stripeOrder.id = Except.ok "po-4" ∧
    (handleProfitTransfer envOk dbEmpty stripeOrder 10).transfers =
      dbEmpty.transfers ++
        [{ order_id := stripeOrder.id
           amount := 10
           method := "stripe"
           transfer_id := "po-4"
           status := "pending"
           notes := none
           created_at := envOk.now }] := by
  have h0 : (0 : ℚ) < 10 := by decide
  have h1 : stripeOrder.payment_method = "stripe" ∧ envOk.stripeConfigured = true :=
    ⟨by decide, by decide⟩
  have h2 : envOk.payoutResult stripeOrder.id = Except.ok "po-4" := by rfl
  exact ⟨h0, h1, h2,
    ((c3_transfer_record_amended envOk dbEmpty stripeOrder 10).1 h0 h1).1 "po-4" h2⟩

/-- Claim C4, counterexample to the claim as stated: an item whose margin is
explicitly set to `0` is charged the default margin, because the JavaScript
`item.profit_margin || 0.25` treats `0` as unset; the claim predicts a
profit of `10 x 0 = 0`, the code returns `10 x 0.25 = 5/2`. -/
theorem c4_zero_margin_cx :
    calculateProfit zeroMarginOrder = 5 / 2 ∧
    calculateProfitSpec zeroMarginOrder = 0 ∧
    calculateProfit zeroMarginOrder ≠ calculateProfitSpec zeroMarginOrder := by
  refine ⟨?_, ?_, ?_⟩ <;>
    norm_num [calculateProfit, calculateProfitSpec, jsOr, zeroMarginOrder, zeroMarginItem]

/-- Claim C4 (amended): `calculateProfit` is a deterministic pure function
of the order: with line items it returns the sum over items of
`total_price x margin_fraction`, where the margin fraction is the item's
explicit margin when one is set and non-zero and the default `0.25`
otherwise (an explicit `0` is treated as unset); with no line items it
returns `total_amount x 0.25`; on the scenario order with item totals 10
and 40 and no explicit margins it returns exactly `12.5 = 25/2`. -/
theorem c4_calculateProfit_amended :
    (∀ order : Order, order.order_items ≠ [] →
      calculateProfit order =
        (order.order_items.map fun item =>
          item.total_price *
            (match item.profit_margin with
             | some m => if m ≠ 0 then m else 25 / 100
             | none => 25 / 100)).sum) ∧
    (∀ order : Order, order.order_items = [] →
      calculateProfit order = order.total_amount * (25 / 100)) ∧
    calculateProfit demoOrder = 25 / 2 := by
  refine ⟨?_, ?_, ?_⟩
  · intro order h
    rw [calculateProfit_items order h]
    congr 1
    apply List.map_congr_left
    intro item _
    congr 1
    unfold jsOr
    cases item.profit_margin with
    | none => rfl
    | some m =>
      dsimp only
      by_cases hm : m = 0
      · simp [hm]
      · simp [hm]
  · intro order h
    unfold calculateProfit
    rw [if_neg (by simp [h])]
  · norm_num [calculateProfit, jsOr, demoOrder, demoItem1, demoItem2]

/-- Claim C4, witness: the amended theorem applied to the scenario order. -/
theorem c4_witness :
    demoOrder.order_items ≠ [] ∧
    calculateProfit demoOrder =
      (demoOrder.order_items.map fun item =>
        item.total_price *
          (match item.profit_margin with
           | some m => if m ≠ 0 then m else 25 / 100
           | none => 25 / 100)).sum :=
  ⟨by decide, c4_calculateProfit_amended.1 demoOrder (by decide)⟩

/-- Claim C5, counterexample to the claim as stated: an order whose
`payment_status` is `'failed'` — not yet paid — is processed to completion
without the Payment Verifier ever being invoked, because the code only
checks `payment_status === 'pending'`. -/
theorem c5_unpaid_skipped_cx :
    skippedOrder.payment_status ≠ "paid" ∧
    (processSingleOrder envOk dbSkipped skippedOrder).1.log = [] ∧
    ((processSingleOrder envOk dbSkipped skippedOrder).1.orders.map fun r =>
      r.status) = ["completed"] := by
  refine ⟨by decide, ?_, ?_⟩
  · rw [processSingleOrder_log]
    decide
  · rw [processSingleOrder_orders]
    decide

/-- Claim C5 (amended): the pipeline invokes the Payment Verifier for an
order exactly when the order's `payment_status` is `'pending'`; in
particular re-running the pipeline on an order already marked paid never
calls the verifier again, and an order with any other payment status — even
an unpaid one such as `'failed'` — proceeds without verification. -/
theorem c5_verifier_exactly_when_pending (env : Env) (db : DB) (order : Order) :
    (processSingleOrder env db order).1.log.count (Event.paymentVerify order.id) =
      db.log.count (Event.paymentVerify order.id) +
        (if order.payment_status = "pending" then 1 else 0) := by
  rw [processSingleOrder_log, List.count_append]
  congr 1
  unfold stepLogDelta
  rw [List.count_append]
  have hz : (((attemptedItems env order.order_items).map fun it : ItemRec =>
      Event.dispatchAttempt it.id).count (Event.paymentVerify order.id)) = 0 := by
    rw [List.count_eq_zero]
    intro hmem
    rcases List.mem_map.mp hmem with ⟨it, -, heq⟩
    exact absurd heq (by simp)
  have hmatch : ((match paymentPhaseOutcome env order with
      | Except.error _ => ([] : List Event)
      | Except.ok _ => (attemptedItems env order.order_items).map fun it : ItemRec =>
          Event.dispatchAttempt it.id).count (Event.paymentVerify order.id)) = 0 := by
    cases paymentPhaseOutcome env order with
    | error e => rfl
    | ok u => exact hz
  rw [hmatch, Nat.add_zero]
  split_ifs <;> simp

/-- Claim C6: items are dispatched sequentially in list order; when the
dispatch of one item fails, the attempted dispatches are exactly the items
up to and including the failing one (so the successfully dispatched items
are the deterministic prefix before it, and nothing after it is touched),
and the order transitions to `failed`. -/
theorem c6_dispatch_prefix (env : Env) (db : DB) (order : Order)
    (pre : List ItemRec) (it : ItemRec) (post : List ItemRec)
    (hsplit : order.order_items = pre ++ it :: post)
    (hpre : ∀ p ∈ pre, (createSupplierOrder env p).isOk = true)
    (hfail : (createSupplierOrder env it).isOk = false)
    (hpay : paymentPhaseOutcome env order = Except.ok ()) :
    (processOrdersStep env db order).log =
      db.log ++
        ((if order.payment_status = "pending" then [Event.paymentVerify order.id] else []) ++
          ((pre ++ [it]).map fun p => Event.dispatchAttempt p.id)) ∧
    (processOrdersStep env db order).items = db.items.map (dispatchItemsFn env pre) ∧
    ∀ rec ∈ (processOrdersStep env db order).orders, rec.id = order.id →
      rec.status = "failed" := by
  obtain ⟨e, he⟩ : ∃ e, createSupplierOrder env it = Except.error e := by
    cases h : createSupplierOrder env it with
    | ok so => rw [h] at hfail; exact absurd hfail (by simp [Except.isOk, Except.toBool])
    | error e2 => exact ⟨e2, rfl⟩
  have hdo : dispatchOutcome env order.order_items = Except.error e := by
    rw [hsplit]
    exact dispatchOutcome_split env pre it post e hpre he
  have hout : orderOutcome env order = Except.error e := by
    unfold orderOutcome
    simp only [hpay]
    exact hdo
  refine ⟨?_, ?_, ?_⟩
  · rw [processOrdersStep_log]
    congr 1
    unfold stepLogDelta
    simp only [hpay]
    congr 1
    rw [hsplit, attemptedItems_split env pre it post hpre hfail]
  · rw [processOrdersStep_items]
    apply List.map_congr_left
    intro r _
    unfold stepItemsFn
    simp only [hpay]
    rw [hsplit, okItems_split env pre it post hpre hfail]
  · intro rec hrec hid
    rw [processOrdersStep_orders] at hrec
    rcases List.mem_map.mp hrec with ⟨r0, -, rfl⟩
    have hid0 : r0.id = order.id := by
      rw [← stepRowFn_id env order r0]
      exact hid
    exact (stepRowFn_failed env order r0 e hid0 hout).1

/-- Claim C6, witness: applied to an order whose second item has no
supplier; the first item alone is dispatched, the third is never attempted,
and the order fails. -/
theorem c6_witness :
    dispatchOrder.order_items = [itemA] ++ itemB :: [itemC] ∧
    (∀ p ∈ [itemA], (createSupplierOrder envOk p).isOk = true) ∧
    (createSupplierOrder envOk itemB).isOk = false ∧
    paymentPhaseOutcome envOk dispatchOrder = Except.ok () ∧
    ((processOrdersStep envOk dbDispatch dispatchOrder).log =
      dbDispatch.log ++
        ((if dispatchOrder.payment_status = "pending" then
            [Event.paymentVerify dispatchOrder.id] else []) ++
          (([itemA] ++ [itemB]).map fun p => Event.dispatchAttempt p.id)) ∧
    (processOrdersStep envOk dbDispatch dispatchOrder).items =
      dbDispatch.items.map (dispatchItemsFn envOk [itemA]) ∧
    ∀ rec ∈ (processOrdersStep envOk dbDispatch dispatchOrder).orders,
      rec.id = dispatchOrder.id → rec.status = "failed") := by
  have h1 : dispatchOrder.order_items = [itemA] ++ itemB :: [itemC] := by decide
  have h2 : ∀ p ∈ [itemA], (createSupplierOrder envOk p).isOk = true := by decide
  have h3 : (createSupplierOrder envOk itemB).isOk = false := by decide
  have h4 : paymentPhaseOutcome envOk dispatchOrder = Except.ok () := by rfl
  exact ⟨h1, h2, h3, h4,
    c6_dispatch_prefix envOk dbDispatch dispatchOrder [itemA] itemB [itemC] h1 h2 h3 h4⟩

/-- Claim C7: once payment verification and supplier dispatch have
succeeded, a failing payout never changes the order's fate — processing
still succeeds and the order's row is written `'completed'`, because
`handleProfitTransfer` swallows every payout error. -/
theorem c7_payout_not_escalated (env : Env) (db : DB) (order : Order) (e : String)
    (hpay : paymentPhaseOutcome env order = Except.ok ())
    (hdisp : dispatchOutcome env order.order_items = Except.ok ())
    (_hfail : env.payoutResult order.id = Except.error e) :
    (processSingleOrder env db order).2 = Except.ok () ∧
    ∀ rec ∈ (processSingleOrder env db order).1.orders, rec.id = order.id →
      rec.status = "completed" := by
  have hout : orderOutcome env order = Except.ok () := by
    unfold orderOutcome
    simp only [hpay]
    exact hdisp
  constructor
  · rw [processSingleOrder_snd]
    exact hout
  · intro rec hrec hid
    rw [processSingleOrder_orders] at hrec
    rcases List.mem_map.mp hrec with ⟨r0, -, rfl⟩
    have hid0 : r0.id = order.id := by
      rw [← singleRowFn_id env order r0]
      exact hid
    exact singleRowFn_completed env order r0 hid0 hpay hdisp

/-- Claim C7, witness: a paid Stripe order whose payout is declined still
completes. -/
theorem c7_witness :
    paymentPhaseOutcome envDeclined stripeOrder = Except.ok () ∧
    dispatchOutcome envDeclined stripeOrder.order_items = Except.ok () ∧
    envDeclined.payoutResult stripeOrder.id = Except.error "card_declined" ∧
    ((processSingleOrder envDeclined dbStripe stripeOrder).2 = Except.ok () ∧
      ∀ rec ∈ (processSingleOrder envDeclined dbStripe stripeOrder).1.orders,
        rec.id = stripeOrder.id → rec.status = "completed") := by
  have h1 : paymentPhaseOutcome envDeclined stripeOrder = Except.ok () := by rfl
  have h2 : dispatchOutcome envDeclined stripeOrder.order_items = Except.ok () := by rfl
  have h3 : envDeclined.payoutResult stripeOrder.id = Except.error "card_declined" := by rfl
  exact ⟨h1, h2, h3,
    c7_payout_not_escalated envDeclined dbStripe stripeOrder "card_declined" h1 h2 h3⟩

/-- Claim C2: orders of a fetched batch are processed independently.  For
every order of the batch (pending, oldest first, at most 10, with distinct
row ids), the final state holds a row for it, and that row's fate is a
function of the order's own outcome alone: `completed` when its own
processing succeeds, `failed` with its own error message persisted when it
fails — regardless of what happens to every other order of the batch. -/
theorem c2_batch_failure_isolation (env : Env) (db : DB)
    (hnd : (db.orders.map OrderRec.id).Nodup)
    (batch : List Order) (hb : fetchPendingOrders env db = Except.ok batch)
    (order : Order) (ho : order ∈ batch) :
    (∃ rec ∈ (processOrders env db).orders, rec.id = order.id) ∧
    ∀ rec ∈ (processOrders env db).orders, rec.id = order.id →
      (orderOutcome env order = Except.ok () → rec.status = "completed") ∧
      ∀ e, orderOutcome env order = Except.error e →
        rec.status = "failed" ∧ rec.error_message = some e := by
  have hbn : (batch.map fun o => o.id).Nodup := fetch_ids_nodup env db batch hnd hb
  have horders : (processOrders env db).orders =
      db.orders.map fun r => batch.foldl (fun r o => stepRowFn env o r) r := by
    rw [processOrders_ok env db batch hb, foldl_step_orders]
  constructor
  · refine ⟨batch.foldl (fun r o => stepRowFn env o r) order.toOrderRec, ?_, ?_⟩
    · rw [horders]
      exact List.mem_map_of_mem _ (fetch_mem env db batch order hb ho)
    · rw [foldl_rowFn_preserves_id]
  · intro rec hrec hid
    rw [horders] at hrec
    rcases List.mem_map.mp hrec with ⟨r0, -, rfl⟩
    have hid0 : r0.id = order.id := by
      rw [← foldl_rowFn_preserves_id env batch r0]
      exact hid
    rw [foldl_rowFn_single env batch order ho hbn r0 hid0]
    constructor
    · intro hok
      exact stepRowFn_completed env order r0 hid0 hok
    · intro e herr
      exact stepRowFn_failed env order r0 e hid0 herr

/-- Claim C2, witness: in a batch where the middle order fails payment
verification, the last order — individually valid — still completes. -/
theorem c2_witness :
    (dbBatch.orders.map OrderRec.id).Nodup ∧
    fetchPendingOrders envOk dbBatch = Except.ok [paypalOrder, bankOrder, paypalOrder2] ∧
    paypalOrder2 ∈ [paypalOrder, bankOrder, paypalOrder2] ∧
    ((∃ rec ∈ (processOrders envOk dbBatch).orders, rec.id = paypalOrder2.id) ∧
      ∀ rec ∈ (processOrders envOk dbBatch).orders, rec.id = paypalOrder2.id →
        (orderOutcome envOk paypalOrder2 = Except.ok () → rec.status = "completed") ∧
        ∀ e, orderOutcome envOk paypalOrder2 = Except.error e →
          rec.status = "failed" ∧ rec.error_message = some e) := by
  have h1 : (dbBatch.orders.map OrderRec.id).Nodup := by decide
  have h2 : fetchPendingOrders envOk dbBatch =
      Except.ok [paypalOrder, bankOrder, paypalOrder2] := by rfl
  have h3 : paypalOrder2 ∈ [paypalOrder, bankOrder, paypalOrder2] := by decide
  exact ⟨h1, h2, h3, c2_batch_failure_isolation envOk dbBatch h1
    [paypalOrder, bankOrder, paypalOrder2] h2 paypalOrder2 h3⟩

/-- Claim C8, counterexample to the claim as stated: an order with the
unsupported method `bank_transfer` whose `payment_status` is already
`'paid'` does not fail — payment verification is skipped entirely and the
order completes with no error message. -/
theorem c8_paid_unsupported_cx :
    bankPaidOrder.payment_method = "bank_transfer" ∧
    ((processOrdersStep envOk dbBankPaid bankPaidOrder).orders.map fun r =>
      r.status) = ["completed"] ∧
    ((processOrdersStep envOk dbBankPaid bankPaidOrder).orders.map fun r =>
      r.error_message) = [none] := by
  refine ⟨by decide, ?_, ?_⟩ <;> (rw [processOrdersStep_orders]; decide)

/-- Claim C8 (amended): for every order whose `payment_status` is
`'pending'` and whose payment method is unsupported (neither Stripe with a
configured client nor PayPal), processing fails with
UnsupportedPaymentMethod: the order's row is written `failed` with
`error_message = 'Unsupported payment method'`, and the order's items,
the transfer ledger and the dispatcher are untouched — the only
collaborator call is the single payment verification. -/
theorem c8_unsupported_method_amended (env : Env) (db : DB) (order : Order)
    (hp : order.payment_status = "pending")
    (hns : ¬(order.payment_method = "stripe" ∧ env.stripeConfigured = true))
    (hnp : order.payment_method ≠ "paypal") :
    (∀ rec ∈ (processOrdersStep env db order).orders, rec.id = order.id →
      rec.status = "failed" ∧ rec.error_message = some "Unsupported payment method") ∧
    (processOrdersStep env db order).items = db.items ∧
    (processOrdersStep env db order).transfers = db.transfers ∧
    (processOrdersStep env db order).log = db.log ++ [Event.paymentVerify order.id] := by
  have hpo : paymentOutcome env order = Except.error "Unsupported payment method" := by
    unfold paymentOutcome
    rw [if_neg hns, if_neg hnp]
  have hphase : paymentPhaseOutcome env order =
      Except.error "Unsupported payment method" := by
    unfold paymentPhaseOutcome
    rw [if_pos hp]
    exact hpo
  have hout : orderOutcome env order = Except.error "Unsupported payment method" := by
    unfold orderOutcome
    simp only [hphase]
  refine ⟨?_, ?_, ?_, ?_⟩
  · intro rec hrec hid
    rw [processOrdersStep_orders] at hrec
    rcases List.mem_map.mp hrec with ⟨r0, -, rfl⟩
    have hid0 : r0.id = order.id := by
      rw [← stepRowFn_id env order r0]
      exact hid
    exact stepRowFn_failed env order r0 _ hid0 hout
  · rw [processOrdersStep_items]
    have hfn : ∀ r ∈ db.items, stepItemsFn env order r = id r := by
      intro r _
      simp [stepItemsFn, hphase]
    rw [List.map_congr_left hfn, List.map_id]
  · rw [processOrdersStep_transfers]
    simp [stepTransfersDelta, hout]
  · rw [processOrdersStep_log]
    simp [stepLogDelta, hphase, hp]

/-- Claim C8, witness: the amended theorem applied to a pending
bank-transfer order. -/
theorem c8_witness :
    bankOrder.payment_status = "pending" ∧
    ¬(bankOrder.payment_method = "stripe" ∧ envOk.stripeConfigured = true) ∧
    bankOrder.payment_method ≠ "paypal" ∧
    ((∀ rec ∈ (processOrdersStep envOk dbBatch bankOrder).orders, rec.id = bankOrder.id →
      rec.status = "failed" ∧ rec.error_message = some "Unsupported payment method") ∧
    (processOrdersStep envOk dbBatch bankOrder).items = dbBatch.items ∧
    (processOrdersStep envOk dbBatch bankOrder).transfers = dbBatch.transfers ∧
    (processOrdersStep envOk dbBatch bankOrder).log =
      dbBatch.log ++ [Event.paymentVerify bankOrder.id]) := by
  have h1 : bankOrder.payment_status = "pending" := by decide
  have h2 : ¬(bankOrder.payment_method = "stripe" ∧ envOk.stripeConfigured = true) := by decide
  have h3 : bankOrder.payment_method ≠ "paypal" := by decide
  exact ⟨h1, h2, h3, c8_unsupported_method_amended envOk dbBatch bankOrder h1 h2 h3⟩

/-- Claim C9: under non-negative order total, item prices and explicitly
set margins, the computed profit is non-negative, and after a batch run the
order's row never carries a negative profit: its `profit_amount` is either
the value it already had or the freshly computed non-negative profit. -/
theorem c9_profit_never_negative (env : Env) (db : DB)
    (hnd : (db.orders.map OrderRec.id).Nodup)
    (batch : List Order) (hb : fetchPendingOrders env db = Except.ok batch)
    (order : Order) (ho : order ∈ batch) (hnn : NonNegOrder order) :
    0 ≤ calculateProfit order ∧
    ∀ rec ∈ (processOrders env db).orders, rec.id = order.id →
      rec.profit_amount = order.profit_amount ∨
      ∃ q, rec.profit_amount = some q ∧ 0 ≤ q := by
  have hbn : (batch.map fun o => o.id).Nodup := fetch_ids_nodup env db batch hnd hb
  have horders : (processOrders env db).orders =
      db.orders.map fun r => batch.foldl (fun r o => stepRowFn env o r) r := by
    rw [processOrders_ok env db batch hb, foldl_step_orders]
  refine ⟨calculateProfit_nonneg order hnn, ?_⟩
  intro rec hrec hid
  rw [horders] at hrec
  rcases List.mem_map.mp hrec with ⟨r0, hr0, rfl⟩
  have hid0 : r0.id = order.id := by
    rw [← foldl_rowFn_preserves_id env batch r0]
    exact hid
  rw [foldl_rowFn_single env batch order ho hbn r0 hid0]
  have hr0eq : r0 = order.toOrderRec :=
    List.inj_on_of_nodup_map hnd hr0 (fetch_mem env db batch order hb ho) hid0
  rcases stepRowFn_profit env order r0 with h | h
  · left
    rw [h, hr0eq]
  · right
    exact ⟨calculateProfit order, h, calculateProfit_nonneg order hnn⟩

/-- Claim C9, witness: applied to the first order of the batch store, whose
total and (absent) items are non-negative. -/
theorem c9_witness :
    (dbBatch.orders.map OrderRec.id).Nodup ∧
    fetchPendingOrders envOk dbBatch = Except.ok [paypalOrder, bankOrder, paypalOrder2] ∧
    paypalOrder ∈ [paypalOrder, bankOrder, paypalOrder2] ∧
    NonNegOrder paypalOrder ∧
    (0 ≤ calculateProfit paypalOrder ∧
      ∀ rec ∈ (processOrders envOk dbBatch).orders, rec.id = paypalOrder.id →
        rec.profit_amount = paypalOrder.profit_amount ∨
        ∃ q, rec.profit_amount = some q ∧ 0 ≤ q) := by
  have h1 : (dbBatch.orders.map OrderRec.id).Nodup := by decide
  have h2 : fetchPendingOrders envOk dbBatch =
      Except.ok [paypalOrder, bankOrder, paypalOrder2] := by rfl
  have h3 : paypalOrder ∈ [paypalOrder, bankOrder, paypalOrder2] := by decide
  have h4 : NonNegOrder paypalOrder := by
    refine ⟨by decide, ?_⟩
    intro item hitem
    exact absurd hitem (List.not_mem_nil item)
  exact ⟨h1, h2, h3, h4, c9_profit_never_negative envOk dbBatch h1
    [paypalOrder, bankOrder, paypalOrder2] h2 paypalOrder h3 h4⟩

/-- Claim C10: the batch trigger never propagates an exception.  A failing
store fetch is absorbed at the top level, leaving the state untouched; a
successful fetch folds every order of the batch through the loop body,
which is a total function; and the loop body turns a per-order failure into
a `failed`-status write on that order's row rather than a thrown error. -/
theorem c10_trigger_never_throws (env : Env) (db : DB) :
    (∀ e, fetchPendingOrders env db = Except.error e → processOrders env db = db) ∧
    (∀ batch, fetchPendingOrders env db = Except.ok batch →
      processOrders env db = batch.foldl (processOrdersStep env) db) ∧
    (∀ db0 : DB, ∀ order : Order, ∀ e,
      (processSingleOrder env db0 order).2 = Except.error e →
      processOrdersStep env db0 order =
        updateOrderRow (processSingleOrder env db0 order).1 order.id fun r =>
          { r with status := "failed", error_message := some e }) := by
  refine ⟨fun e he => processOrders_fetchError env db e he,
    fun batch hb => processOrders_ok env db batch hb,
    fun db0 order e he => ?_⟩
  unfold processOrdersStep
  cases hps : processSingleOrder env db0 order with
  | mk db1 res =>
    rw [hps] at he
    dsimp only at he
    rw [he]

/-- Claim C10, witness: a failing fetch leaves the store untouched and the
trigger returns normally. -/
theorem c10_witness :
    fetchPendingOrders envFetchFail dbBatch = Except.error "store unavailable" ∧
    processOrders envFetchFail dbBatch = dbBatch :=
  ⟨by rfl, (c10_trigger_never_throws envFetchFail dbBatch).1 "store unavailable" (by rfl)⟩

end OrderProcessor
